import Mathlib

/-!
Shallow embedding of src/gpjax/kernels/base.py: the kernel algebra of this
repository (active-dims normalization, the Constant leaf kernel, the
sum/product combination kernels with construction-time flattening, and the
operator overloads that build composites).

Modelling conventions:
  - Python scalars are rationals (exact arithmetic); a single input vector
    of kernel arguments is a list of rationals.
  - Python exceptions are the error side of an Except value.
  - A Python int and a Python float are distinguished by the constructor of
    PyScalar, because isinstance dispatch in the source distinguishes them.
  - The value held by the active_dims field is a Selector; the source
    default value 1 is Selector.int 1.
-/

/-- Python exceptions that the embedded code can raise. -/
inductive PyError where
  | valueError (msg : String)
  | typeError (msg : String)
  | zeroDivisionError (msg : String)
deriving DecidableEq

/-- A Python slice object: start, stop and step, each possibly None. -/
structure Slice where
  start : Option Int
  stop : Option Int
  step : Option Int
deriving DecidableEq

/-- The runtime value stored in the active_dims field: an index list, a
Python int, a slice, a Python float (what a bare float scalar passed
positionally to the Constant constructor becomes), or None. -/
inductive Selector where
  | list (l : List Int)
  | int (k : Int)
  | slice (s : Slice)
  | pyFloat (q : ℚ)
  | none
deriving DecidableEq

/-- Embedding of _check_active_dims (base.py lines 212-221): dispatch on the
runtime type of active_dims; a list maps to its length, an int k maps to
(k, slice(None)), a slice maps to floor division of (stop - start) by step
(Python // is floor division, Int.fdiv); any other type raises ValueError.
When start or stop is None the subtraction (a.stop - a.start) raises an
unguarded TypeError, and a zero step raises ZeroDivisionError at //. -/
def _check_active_dims : Selector → Except PyError (Int × Selector)
  | .list l => .ok ((l.length : Int), .list l)
  | .int k => .ok (k, .slice ⟨Option.none, Option.none, Option.none⟩)
  | .slice a =>
      let step : Int := match a.step with | Option.none => 1 | Option.some s => s
      match a.stop, a.start with
      | Option.some e, Option.some b =>
          if step = 0 then .error (.zeroDivisionError "integer division or modulo by zero")
          else .ok (Int.fdiv (e - b) step, .slice a)
      | _, _ => .error (.typeError "unsupported operand type for subtraction with None")
  | .pyFloat _ => .error (.valueError "active_dims must be a list, int or slice.")
  | .none => .error (.valueError "active_dims must be a list, int or slice.")

/-- The reduction bound by a combination kernel factory: jnp.sum for
SumKernel, jnp.prod for ProductKernel. -/
inductive Operator where
  | sum
  | prod
deriving DecidableEq

/-- A kernel value as used by evaluation: the Constant leaf (its squeezed
scalar parameter), an arbitrary other concrete leaf kernel given by its
pairwise evaluation function, or a combination node carrying the bound
operator and the (already flattened) child list. -/
inductive Kernel where
  | constant (c : ℚ)
  | leaf (f : List ℚ → List ℚ → ℚ)
  | combination (op : Operator) (kernels : List Kernel)

/-- jnp.sum and jnp.prod applied to the stacked vector of child results. -/
def reduceOp : Operator → List ℚ → ℚ
  | .sum, v => v.sum
  | .prod, v => v.prod

mutual
/-- Embedding of kernel __call__: a Constant returns its squeezed scalar
parameter ignoring both inputs (base.py line 159); a combination stacks the
child evaluations in child order and reduces with the bound operator
(base.py line 199); any other leaf applies its own evaluation function. -/
def evalK : Kernel → List ℚ → List ℚ → ℚ
  | .constant c, _, _ => c
  | .leaf f, x, y => f x y
  | .combination op ks, x, y => reduceOp op (evalChildren ks x y)

/-- The list comprehension of base.py line 199: each child evaluated at the
same pair of inputs, in child order. -/
def evalChildren : List Kernel → List ℚ → List ℚ → List ℚ
  | [], _, _ => []
  | k :: ks, x, y => evalK k x y :: evalChildren ks x y
end

/-- True exactly on combination nodes, i.e. isinstance(k, CombinationKernel).
Both factories are partial applications of the one CombinationKernel class,
so the post-init isinstance check cannot see the operator kind. -/
def Kernel.isComb : Kernel → Bool
  | .combination _ _ => true
  | _ => false

/-- What one operand contributes to the flattened child list: a combination
operand contributes its children, any other kernel contributes itself. -/
def Kernel.splice : Kernel → List Kernel
  | .combination _ ks => ks
  | k => [k]

/-- Every child of a combination node is itself not a combination node (the
state the post-init flattening leaves every constructed combination in);
leaf kernels satisfy it trivially. -/
def Kernel.childrenFlat : Kernel → Prop
  | .combination _ ks => ∀ k ∈ ks, k.isComb = false
  | _ => True

/-- A constructed Python kernel object: its n_dims field (None while never
assigned, which is the state CombinationKernel leaves it in because its
post-init overrides the base one), its active_dims field, and the kernel
value it evaluates as. -/
structure KernelObj where
  n_dims : Option Int
  active_dims : Selector
  tree : Kernel

/-- An element of the kernels argument of CombinationKernel: either a kernel
instance or some other Python object such as a plain string. -/
inductive Operand where
  | kernel (k : Kernel)
  | nonKernel (descr : String)

/-- The loop of CombinationKernel.__post_init__ (base.py lines 171-180):
walk the operands left to right, raise TypeError at the first operand that
is not a kernel instance, splice the children of any combination operand
(the isinstance check is against CombinationKernel itself, so it matches
combinations of either reduction kind), append any other kernel unchanged. -/
def flattenLoop : List Kernel → List Operand → Except PyError (List Kernel)
  | acc, [] => .ok acc
  | _, .nonKernel _ :: _ => .error (.typeError "can only combine Kernel instances")
  | acc, .kernel k :: rest =>
      match k with
      | .combination _ ks => flattenLoop (acc ++ ks) rest
      | k0 => flattenLoop (acc ++ [k0]) rest

/-- CombinationKernel.__post_init__ run on the kernels argument, starting
from the empty kernels_list. -/
def flattenOperands (ops : List Operand) : Except PyError (List Kernel) :=
  flattenLoop [] ops

/-- Constructing a CombinationKernel object: run the flattening post-init.
The overriding post-init never assigns n_dims (the base post-init is not
called), and active_dims keeps the raw value it was passed (default 1). -/
def CombinationKernel.init (op : Operator) (kernels : List Operand)
    (active_dims : Selector) : Except PyError KernelObj := do
  let ks ← flattenOperands kernels
  pure ⟨Option.none, active_dims, Kernel.combination op ks⟩

/-- SumKernel = ft.partial(CombinationKernel, operator=jnp.sum), called with
the kernels argument only, so active_dims keeps its default value 1. -/
def SumKernel (kernels : List Operand) : Except PyError KernelObj :=
  CombinationKernel.init Operator.sum kernels (Selector.int 1)

/-- ProductKernel = ft.partial(CombinationKernel, operator=jnp.prod). -/
def ProductKernel (kernels : List Operand) : Except PyError KernelObj :=
  CombinationKernel.init Operator.prod kernels (Selector.int 1)

/-- Constructing a Constant object: the base post-init normalizes the
active_dims argument through _check_active_dims and assigns n_dims; the
constant parameter slot holds the given scalar (default 0.0). -/
def Constant.init (active_dims : Selector) (constant : ℚ) :
    Except PyError KernelObj := do
  let r ← _check_active_dims active_dims
  pure ⟨Option.some r.1, r.2, Kernel.constant constant⟩

/-- A bare Python scalar, as dispatched on by isinstance: int or float. -/
inductive PyScalar where
  | int (n : Int)
  | float (q : ℚ)

/-- The value a bare scalar becomes when it is passed positionally to the
Constant constructor: the first init parameter of the dataclass is
active_dims, so the scalar lands in the active_dims slot. -/
def PyScalar.toSelector : PyScalar → Selector
  | .int n => Selector.int n
  | .float q => Selector.pyFloat q

/-- The other argument of __add__ and __mul__: a kernel or a bare scalar. -/
inductive AddOperand where
  | kernel (k : Kernel)
  | scalar (s : PyScalar)

/-- Embedding of AbstractKernel.__add__ (base.py lines 88-102): a kernel
operand gives SumKernel(kernels=[self, other]); any other operand is passed
positionally to Constant, i.e. Constant(other) binds other to active_dims
and leaves the constant parameter at its default 0.0. -/
def Kernel.add (self : Kernel) : AddOperand → Except PyError KernelObj
  | .kernel other => SumKernel [Operand.kernel self, Operand.kernel other]
  | .scalar other => do
      let c ← Constant.init (PyScalar.toSelector other) 0
      SumKernel [Operand.kernel self, Operand.kernel c.tree]

/-- Embedding of AbstractKernel.__radd__ (base.py lines 104-115): it simply
calls self.__add__(other). -/
def Kernel.radd (self : Kernel) (other : AddOperand) : Except PyError KernelObj :=
  Kernel.add self other

/-- Embedding of AbstractKernel.__mul__ (base.py lines 117-132), the product
analogue of __add__. -/
def Kernel.mul (self : Kernel) : AddOperand → Except PyError KernelObj
  | .kernel other => ProductKernel [Operand.kernel self, Operand.kernel other]
  | .scalar other => do
      let c ← Constant.init (PyScalar.toSelector other) 0
      ProductKernel [Operand.kernel self, Operand.kernel c.tree]

/-- Python indexing of a vector by a single integer, with negative wrap:
x[i] for -len <= i < len, IndexError (None) otherwise. -/
def pyGetElem (x : List ℚ) (i : Int) : Option ℚ :=
  if 0 ≤ i ∧ i < (x.length : Int) then x[i.toNat]?
  else if -(x.length : Int) ≤ i ∧ i < 0 then x[(i + (x.length : Int)).toNat]?
  else Option.none

/-- The effective step of a Python slice: its step, defaulting to 1. -/
def sliceStep (s : Slice) : Int :=
  match s.step with | Option.none => 1 | Option.some v => v

/-- Lower clamp bound of the CPython slice index adjustment. -/
def sliceLower (step : Int) : Int := if 0 < step then 0 else -1

/-- Upper clamp bound of the CPython slice index adjustment. -/
def sliceUpper (step len : Int) : Int := if 0 < step then len else len - 1

/-- CPython adjustment of one given slice endpoint: negative values wrap by
the length and are clamped below, nonnegative values are clamped above. -/
def sliceAdj (step len v : Int) : Int :=
  if v < 0 then max (v + len) (sliceLower step) else min v (sliceUpper step len)

/-- The effective slice start: the given start adjusted, or the default for
the sign of the step. -/
def sliceStart (s : Slice) (len : Int) : Int :=
  match s.start with
  | Option.none =>
      if 0 < sliceStep s then sliceLower (sliceStep s)
      else sliceUpper (sliceStep s) len
  | Option.some v => sliceAdj (sliceStep s) len v

/-- The effective slice stop: the given stop adjusted, or the default for
the sign of the step. -/
def sliceStop (s : Slice) (len : Int) : Int :=
  match s.stop with
  | Option.none =>
      if 0 < sliceStep s then sliceUpper (sliceStep s) len
      else sliceLower (sliceStep s)
  | Option.some v => sliceAdj (sliceStep s) len v

/-- The number of indices a slice with adjusted endpoints selects (the
CPython slice length formula). -/
def sliceCount (start stop step : Int) : Int :=
  if 0 < step then
    (if start < stop then Int.fdiv (stop - start - 1) step + 1 else 0)
  else
    (if stop < start then Int.fdiv (start - stop - 1) (-step) + 1 else 0)

/-- Python slicing of a vector: adjust the endpoints, compute the number of
selected indices, and gather the elements at start, start + step, and so
on. The caller guards step = 0. -/
def sliceElems (s : Slice) (x : List ℚ) : List ℚ :=
  (List.range (sliceCount (sliceStart s (x.length : Int))
      (sliceStop s (x.length : Int)) (sliceStep s)).toNat).filterMap
    (fun (i : Nat) =>
      pyGetElem x (sliceStart s (x.length : Int) + sliceStep s * (i : Int)))

/-- The result of x[..., sel] on the trailing axis of an input vector:
integer indexing removes the axis and yields a scalar, list or slice
indexing keeps the axis. -/
inductive Sliced where
  | arr (xs : List ℚ)
  | scalar (v : ℚ)
deriving DecidableEq

/-- x[..., sel] on a vector x for each possible runtime value of the
selector: a list gathers (IndexError as None when an index is out of
range), an int picks one element dropping the axis, a slice with nonzero
step slices (ValueError as None when the step is zero), and a float is not
a valid index (None). -/
def selectDims : Selector → List ℚ → Option Sliced
  | .list l, x => (l.mapM (pyGetElem x)).map Sliced.arr
  | .int k, x => (pyGetElem x k).map Sliced.scalar
  | .slice s, x =>
      match s.step with
      | Option.some v =>
          if v = 0 then Option.none else Option.some (Sliced.arr (sliceElems s x))
      | Option.none => Option.some (Sliced.arr (sliceElems s x))
  | .pyFloat _, _ => Option.none
  | .none, _ => Option.none

/-- Embedding of AbstractKernel.slice_input (base.py lines 55-68):
x[..., self.active_dims] if self.active_dims is not None else x. -/
def KernelObj.slice_input (self : KernelObj) (x : List ℚ) : Option Sliced :=
  match self.active_dims with
  | .none => Option.some (Sliced.arr x)
  | ad => selectDims ad x

/-! ### Basic facts about flattening and evaluation -/

theorem flattenLoop_kernel (acc : List Kernel) (k : Kernel) (rest : List Operand) :
    flattenLoop acc (Operand.kernel k :: rest) = flattenLoop (acc ++ k.splice) rest := by
  cases k <;> rfl

theorem flattenLoop_nonKernel (d : String) :
    ∀ (pre post : List Operand) (acc : List Kernel),
      flattenLoop acc (pre ++ Operand.nonKernel d :: post) =
        Except.error (PyError.typeError "can only combine Kernel instances") := by
  intro pre
  induction pre with
  | nil => intro post acc; rfl
  | cons o pre ih =>
      intro post acc
      cases o with
      | kernel k => rw [List.cons_append, flattenLoop_kernel]; exact ih post _
      | nonKernel d2 => rfl

theorem flattenOperands_pair (a b : Kernel) :
    flattenOperands [Operand.kernel a, Operand.kernel b] =
      Except.ok (a.splice ++ b.splice) := by
  show flattenLoop [] [Operand.kernel a, Operand.kernel b] = _
  rw [flattenLoop_kernel, flattenLoop_kernel]
  show Except.ok (([] ++ a.splice) ++ b.splice) = _
  rw [List.nil_append]

theorem add_kernel_eq (a b : Kernel) :
    Kernel.add a (AddOperand.kernel b) =
      Except.ok ⟨Option.none, Selector.int 1,
        Kernel.combination Operator.sum (a.splice ++ b.splice)⟩ := by
  show CombinationKernel.init Operator.sum _ _ = _
  rw [CombinationKernel.init, flattenOperands_pair]
  rfl

theorem mul_kernel_eq (a b : Kernel) :
    Kernel.mul a (AddOperand.kernel b) =
      Except.ok ⟨Option.none, Selector.int 1,
        Kernel.combination Operator.prod (a.splice ++ b.splice)⟩ := by
  show CombinationKernel.init Operator.prod _ _ = _
  rw [CombinationKernel.init, flattenOperands_pair]
  rfl

theorem evalChildren_eq_map (ks : List Kernel) (x y : List ℚ) :
    evalChildren ks x y = ks.map (fun k => evalK k x y) := by
  induction ks with
  | nil => rfl
  | cons k ks ih => rw [evalChildren, List.map_cons, ih]

theorem evalK_combination (op : Operator) (ks : List Kernel) (x y : List ℚ) :
    evalK (Kernel.combination op ks) x y =
      reduceOp op (ks.map (fun k => evalK k x y)) := by
  rw [evalK, evalChildren_eq_map]

/-! ### Claim theorems, first batch -/

/-- C6: for any two kernels A and B and all inputs, (A + B) and (B + A)
evaluate to numerically equal results (even though the internal child order
differs), and reflected addition is literally forward addition, so it
produces the same result. -/
theorem C6_add_commutes :
    (∀ (A B : Kernel) (x y : List ℚ), ∃ o1 o2 : KernelObj,
        Kernel.add A (AddOperand.kernel B) = Except.ok o1 ∧
        Kernel.add B (AddOperand.kernel A) = Except.ok o2 ∧
        evalK o1.tree x y = evalK o2.tree x y) ∧
    (∀ (A : Kernel) (o : AddOperand), Kernel.radd A o = Kernel.add A o) := by
  constructor
  · intro A B x y
    refine ⟨_, _, add_kernel_eq A B, add_kernel_eq B A, ?_⟩
    show evalK (Kernel.combination Operator.sum (A.splice ++ B.splice)) x y =
      evalK (Kernel.combination Operator.sum (B.splice ++ A.splice)) x y
    rw [evalK_combination, evalK_combination, reduceOp, reduceOp,
      List.map_append, List.map_append, List.sum_append, List.sum_append,
      add_comm]
  · intro A o
    rfl

/-- C7: the Constant kernel ignores both inputs and returns the current
value of its constant parameter slot; in particular a Constant constructed
with constant value 5.0 evaluates to 5.0 on any pair of inputs. -/
theorem C7_constant_eval :
    (∀ (c : ℚ) (x y x2 y2 : List ℚ), evalK (Kernel.constant c) x y = c ∧
        evalK (Kernel.constant c) x y = evalK (Kernel.constant c) x2 y2) ∧
    (∃ obj : KernelObj, Constant.init (Selector.int 1) 5 = Except.ok obj ∧
        ∀ x y : List ℚ, evalK obj.tree x y = 5) := by
  constructor
  · intro c x y x2 y2
    exact ⟨by rw [evalK], by rw [evalK, evalK]⟩
  · refine ⟨⟨Option.some 1, Selector.slice ⟨Option.none, Option.none, Option.none⟩,
      Kernel.constant 5⟩, rfl, ?_⟩
    intro x y
    rw [evalK]

/-- C9: constructing a combination kernel from an operand list containing a
non-kernel element raises TypeError with message "can only combine Kernel
instances", whatever the reduction kind, the active_dims argument, the
operands before the bad one and the operands after it (so the error never
depends on flattening the later operands). -/
theorem C9_nonkernel_typeerror :
    ∀ (op : Operator) (ad : Selector) (pre : List Operand) (d : String)
      (post : List Operand),
      CombinationKernel.init op (pre ++ Operand.nonKernel d :: post) ad =
        Except.error (PyError.typeError "can only combine Kernel instances") := by
  intro op ad pre d post
  show (do
    let ks ← flattenOperands (pre ++ Operand.nonKernel d :: post)
    pure (⟨Option.none, ad, Kernel.combination op ks⟩ : KernelObj) :
      Except PyError KernelObj) = _
  rw [flattenOperands, flattenLoop_nonKernel]
  rfl

/-- C1: the scalar-lifting claim fails on the code. The else branch of
__add__ builds Constant(other) with the scalar passed positionally, and the
first init parameter of the Constant dataclass is active_dims. So adding a
bare float raises ValueError from _check_active_dims (adding never even
reaches the sum constructor), and adding a bare int k builds
Constant(active_dims=k, constant=0.0), so the composite evaluates to
A.evaluate(x,y) + 0.0, not A.evaluate(x,y) + k. -/
theorem C1_scalar_lifting_bug :
    Kernel.add (Kernel.constant 2) (AddOperand.scalar (PyScalar.float 3)) =
      Except.error (PyError.valueError "active_dims must be a list, int or slice.") ∧
    (∃ obj : KernelObj,
      Kernel.add (Kernel.constant 2) (AddOperand.scalar (PyScalar.int 3)) =
        Except.ok obj ∧
      obj.tree = Kernel.combination Operator.sum
        [Kernel.constant 2, Kernel.constant 0] ∧
      ∀ x y : List ℚ, evalK obj.tree x y = 2 ∧
        evalK obj.tree x y ≠ evalK (Kernel.constant 2) x y + 3) := by
  refine ⟨rfl, ⟨Option.none, Selector.int 1,
    Kernel.combination Operator.sum [Kernel.constant 2, Kernel.constant 0]⟩,
    rfl, rfl, ?_⟩
  intro x y
  constructor
  · rw [evalK_combination]
    simp [evalK, reduceOp]
  · rw [evalK_combination]
    simp [evalK, reduceOp]

/-- C2: heterogeneous nesting does not survive construction. SumKernel and
ProductKernel are partial applications of the single CombinationKernel
class, so the isinstance(kernel, self.__class__) test in the post-init
matches a combination of either reduction kind; a product operand handed to
the sum constructor is spliced into the parent child list (three leaf
children), not appended as one unchanged child, and the composite evaluates
to 2 + 3 + 1 = 6 instead of 2 * 3 + 1 = 7. -/
theorem C2_heterogeneous_splice_bug :
    ∃ pObj sObj : KernelObj,
      ProductKernel [Operand.kernel (Kernel.constant 2),
        Operand.kernel (Kernel.constant 3)] = Except.ok pObj ∧
      SumKernel [Operand.kernel pObj.tree,
        Operand.kernel (Kernel.constant 1)] = Except.ok sObj ∧
      sObj.tree = Kernel.combination Operator.sum
        [Kernel.constant 2, Kernel.constant 3, Kernel.constant 1] ∧
      (∀ ks : List Kernel,
        sObj.tree = Kernel.combination Operator.sum ks → ks.length = 3) ∧
      (∀ x y : List ℚ, evalK sObj.tree x y = 6 ∧
        evalK pObj.tree x y + evalK (Kernel.constant 1) x y = 7) := by
  refine ⟨⟨Option.none, Selector.int 1,
      Kernel.combination Operator.prod [Kernel.constant 2, Kernel.constant 3]⟩,
    ⟨Option.none, Selector.int 1,
      Kernel.combination Operator.sum
        [Kernel.constant 2, Kernel.constant 3, Kernel.constant 1]⟩,
    rfl, rfl, rfl, ?_, ?_⟩
  · intro ks h
    rw [Kernel.combination.injEq] at h
    rw [← h.2]
    rfl
  · intro x y
    constructor
    · rw [evalK_combination]
      simp [evalK, reduceOp]
      norm_num
    · rw [evalK_combination]
      simp [evalK, reduceOp]
      norm_num

/-- C5: a combination kernel does evaluate as the bound reduction of the
child evaluations taken in child order, and the two Constant examples hold,
but the general identity (A + B).evaluate = A.evaluate + B.evaluate fails
on the code: for A = Constant(2) * Constant(3) and B = Constant(1) the sum
constructor splices the product children, so (A + B) evaluates to 6 while
A.evaluate + B.evaluate = 7. -/
theorem C5_combination_eval_bug :
    (∀ (op : Operator) (ks : List Kernel) (x y : List ℚ),
        evalK (Kernel.combination op ks) x y =
          reduceOp op (ks.map (fun k => evalK k x y))) ∧
    (∃ A B S : KernelObj,
      Kernel.mul (Kernel.constant 2) (AddOperand.kernel (Kernel.constant 3)) =
        Except.ok A ∧
      (∀ x y : List ℚ, evalK A.tree x y = 6) ∧
      Kernel.add (Kernel.constant 2) (AddOperand.kernel (Kernel.constant 3)) =
        Except.ok B ∧
      (∀ x y : List ℚ, evalK B.tree x y = 5) ∧
      Kernel.add A.tree (AddOperand.kernel (Kernel.constant 1)) = Except.ok S ∧
      (∀ x y : List ℚ, evalK S.tree x y = 6 ∧
        evalK S.tree x y ≠ evalK A.tree x y + evalK (Kernel.constant 1) x y)) := by
  refine ⟨evalK_combination, ⟨Option.none, Selector.int 1,
      Kernel.combination Operator.prod [Kernel.constant 2, Kernel.constant 3]⟩,
    ⟨Option.none, Selector.int 1,
      Kernel.combination Operator.sum [Kernel.constant 2, Kernel.constant 3]⟩,
    ⟨Option.none, Selector.int 1,
      Kernel.combination Operator.sum
        [Kernel.constant 2, Kernel.constant 3, Kernel.constant 1]⟩,
    rfl, ?_, rfl, ?_, ?_, ?_⟩
  · intro x y
    rw [evalK_combination]
    simp [evalK, reduceOp]
    norm_num
  · intro x y
    rw [evalK_combination]
    simp [evalK, reduceOp]
    norm_num
  · exact add_kernel_eq _ _
  · intro x y
    constructor
    · rw [evalK_combination]
      simp [evalK, reduceOp]
      norm_num
    · rw [evalK_combination, evalK_combination]
      simp [evalK, reduceOp]
      norm_num

theorem splice_of_not_comb {k : Kernel} (h : k.isComb = false) : k.splice = [k] := by
  cases k with
  | constant c => rfl
  | leaf f => rfl
  | combination op ks => exact absurd h (by rw [Kernel.isComb]; simp)

theorem init_eq (op : Operator) (ops : List Operand) (ad : Selector) :
    CombinationKernel.init op ops ad =
      Except.map (fun ks => (⟨Option.none, ad, Kernel.combination op ks⟩ : KernelObj))
        (flattenOperands ops) := by
  cases h : flattenOperands ops with
  | error e =>
      show (flattenOperands ops >>= _) = _
      rw [h]
      rfl
  | ok L =>
      show (flattenOperands ops >>= _) = _
      rw [h]
      rfl

theorem flattenLoop_flat :
    ∀ (ops : List Operand) (acc res : List Kernel),
      (∀ k ∈ acc, k.isComb = false) →
      (∀ k, Operand.kernel k ∈ ops → k.childrenFlat) →
      flattenLoop acc ops = Except.ok res → ∀ k ∈ res, k.isComb = false := by
  intro ops
  induction ops with
  | nil =>
      intro acc res hacc hops h
      have heq : flattenLoop acc [] = Except.ok acc := rfl
      rw [heq] at h
      cases h
      exact hacc
  | cons o rest ih =>
      intro acc res hacc hops h
      cases o with
      | nonKernel d =>
          have heq : flattenLoop acc (Operand.nonKernel d :: rest) =
              Except.error (PyError.typeError "can only combine Kernel instances") := rfl
          rw [heq] at h
          exact Except.noConfusion h
      | kernel k =>
          rw [flattenLoop_kernel] at h
          refine ih _ _ ?_ (fun k2 hk2 => hops k2 (List.mem_cons_of_mem _ hk2)) h
          intro k2 hk2
          rw [List.mem_append] at hk2
          cases hk2 with
          | inl h2 => exact hacc _ h2
          | inr h2 =>
              have hk := hops k (List.mem_cons_self (Operand.kernel k) rest)
              cases k with
              | combination op2 ks2 =>
                  rw [Kernel.childrenFlat] at hk
                  exact hk k2 h2
              | constant c =>
                  have h2b : k2 ∈ [Kernel.constant c] := h2
                  rw [List.mem_singleton] at h2b
                  rw [h2b]
                  rfl
              | leaf f =>
                  have h2b : k2 ∈ [Kernel.leaf f] := h2
                  rw [List.mem_singleton] at h2b
                  rw [h2b]
                  rfl

/-- C4 counterexample: the claim quantifies over any three kernels, but when
A is itself a (constructible) combination kernel, A is spliced during
((A + B) + C) and the final child list has 4 elements, not 3. -/
theorem C4_three_elements_cex :
    ∃ A o1 o2 : KernelObj,
      SumKernel [Operand.kernel (Kernel.constant 1),
        Operand.kernel (Kernel.constant 2)] = Except.ok A ∧
      Kernel.add A.tree (AddOperand.kernel (Kernel.constant 3)) = Except.ok o1 ∧
      Kernel.add o1.tree (AddOperand.kernel (Kernel.constant 4)) = Except.ok o2 ∧
      o2.tree = Kernel.combination Operator.sum [Kernel.constant 1,
        Kernel.constant 2, Kernel.constant 3, Kernel.constant 4] ∧
      ∀ ks : List Kernel,
        o2.tree = Kernel.combination Operator.sum ks → ks.length ≠ 3 := by
  refine ⟨⟨Option.none, Selector.int 1,
      Kernel.combination Operator.sum [Kernel.constant 1, Kernel.constant 2]⟩,
    ⟨Option.none, Selector.int 1,
      Kernel.combination Operator.sum
        [Kernel.constant 1, Kernel.constant 2, Kernel.constant 3]⟩,
    ⟨Option.none, Selector.int 1,
      Kernel.combination Operator.sum [Kernel.constant 1, Kernel.constant 2,
        Kernel.constant 3, Kernel.constant 4]⟩,
    rfl, rfl, rfl, rfl, ?_⟩
  intro ks h
  rw [Kernel.combination.injEq] at h
  rw [← h.2]
  decide

/-- C4 amended: for three kernels that are themselves leaves (not
combination kernels) the chained sum has exactly 3 children; every
combination built from constructed operands (operands whose own child lists
are flat) has no combination child at all, in particular none of the same
reduction kind; and every binary sum splices the operand contributions in
place, preserving their relative order. -/
theorem C4_amended_flat :
    (∀ A B C : Kernel, A.isComb = false → B.isComb = false → C.isComb = false →
      ∃ o1 o2 : KernelObj,
        Kernel.add A (AddOperand.kernel B) = Except.ok o1 ∧
        Kernel.add o1.tree (AddOperand.kernel C) = Except.ok o2 ∧
        o2.tree = Kernel.combination Operator.sum [A, B, C]) ∧
    (∀ (op : Operator) (ops : List Operand) (ad : Selector) (obj : KernelObj),
      (∀ k, Operand.kernel k ∈ ops → k.childrenFlat) →
      CombinationKernel.init op ops ad = Except.ok obj →
      ∀ ks : List Kernel, obj.tree = Kernel.combination op ks →
        ∀ k ∈ ks, k.isComb = false) ∧
    (∀ a b : Kernel, ∃ o : KernelObj,
      Kernel.add a (AddOperand.kernel b) = Except.ok o ∧
      o.tree = Kernel.combination Operator.sum (a.splice ++ b.splice)) := by
  refine ⟨?_, ?_, ?_⟩
  · intro A B C hA hB hC
    refine ⟨_, _, add_kernel_eq A B, add_kernel_eq _ C, ?_⟩
    show Kernel.combination Operator.sum
        ((Kernel.combination Operator.sum (A.splice ++ B.splice)).splice ++ C.splice) =
      Kernel.combination Operator.sum [A, B, C]
    rw [Kernel.splice, splice_of_not_comb hA, splice_of_not_comb hB,
      splice_of_not_comb hC]
    rfl
  · intro op ops ad obj hops hinit ks htree k hk
    rw [init_eq] at hinit
    cases hfl : flattenOperands ops with
    | error e =>
        rw [hfl] at hinit
        exact Except.noConfusion hinit
    | ok L =>
        rw [hfl] at hinit
        have hobj : obj = ⟨Option.none, ad, Kernel.combination op L⟩ :=
          (Except.ok.inj hinit).symm
        rw [hobj] at htree
        have hks : L = ks := (Kernel.combination.injEq _ _ _ _).mp htree |>.2
        rw [← hks] at hk
        exact flattenLoop_flat ops [] L (by intro k2 hk2; cases hk2) hops hfl k hk
  · intro a b
    exact ⟨_, add_kernel_eq a b, rfl⟩

/-- C4 witness: the amended statement applied at leaf kernels
Constant(1), Constant(2), Constant(3), and the flatness conclusion applied
to the sum built from the single leaf operand Constant(7). -/
theorem C4_amended_flat_witness :
    (∃ o1 o2 : KernelObj,
      Kernel.add (Kernel.constant 1) (AddOperand.kernel (Kernel.constant 2)) =
        Except.ok o1 ∧
      Kernel.add o1.tree (AddOperand.kernel (Kernel.constant 3)) = Except.ok o2 ∧
      o2.tree = Kernel.combination Operator.sum
        [Kernel.constant 1, Kernel.constant 2, Kernel.constant 3]) ∧
    (Kernel.constant 7).isComb = false := by
  constructor
  · exact C4_amended_flat.1 (Kernel.constant 1) (Kernel.constant 2)
      (Kernel.constant 3) rfl rfl rfl
  · exact C4_amended_flat.2.1 Operator.sum [Operand.kernel (Kernel.constant 7)]
      (Selector.int 1)
      ⟨Option.none, Selector.int 1, Kernel.combination Operator.sum [Kernel.constant 7]⟩
      (by intro k hk; simp at hk; rw [hk]; trivial)
      rfl [Kernel.constant 7] rfl (Kernel.constant 7) (List.mem_singleton.mpr rfl)

/-! ### Facts about indexing and slicing -/

theorem pyGetElem_natCast (x : List ℚ) (n : Nat) (h : n < x.length) :
    pyGetElem x (n : Int) = Option.some x[n] := by
  unfold pyGetElem
  rw [if_pos ⟨Int.natCast_nonneg n, by exact_mod_cast h⟩, Int.toNat_natCast]
  exact List.getElem?_eq_getElem h

theorem pyGetElem_isSome (x : List ℚ) (i : Int) (h1 : -(x.length : Int) ≤ i)
    (h2 : i < (x.length : Int)) : (pyGetElem x i).isSome := by
  unfold pyGetElem
  by_cases h : 0 ≤ i ∧ i < (x.length : Int)
  · rw [if_pos h, List.getElem?_eq_getElem (by omega)]
    rfl
  · rw [if_neg h, if_pos ⟨h1, by omega⟩, List.getElem?_eq_getElem (by omega)]
    rfl

theorem length_filterMap_of_isSome {α β : Type} (f : α → Option β) :
    ∀ l : List α, (∀ a ∈ l, (f a).isSome) → (l.filterMap f).length = l.length := by
  intro l
  induction l with
  | nil => intro; rfl
  | cons a l ih =>
      intro h
      rw [List.filterMap_cons]
      cases hfa : f a with
      | none =>
          have := h a (List.mem_cons_self a l)
          rw [hfa] at this
          exact absurd this (by simp)
      | some b =>
          rw [List.length_cons, ih (fun a2 ha2 => h a2 (List.mem_cons_of_mem _ ha2)),
            List.length_cons]

theorem mapM_some_length {α β : Type} (f : α → Option β) :
    ∀ l : List α, (∀ a ∈ l, (f a).isSome) →
      ∃ ys : List β, l.mapM f = Option.some ys ∧ ys.length = l.length := by
  intro l
  induction l with
  | nil => intro; exact ⟨[], rfl, rfl⟩
  | cons a l ih =>
      intro h
      obtain ⟨b, hb⟩ := Option.isSome_iff_exists.mp (h a (List.mem_cons_self a l))
      obtain ⟨ys, hys, hlen⟩ := ih (fun a2 ha2 => h a2 (List.mem_cons_of_mem _ ha2))
      refine ⟨b :: ys, ?_, by rw [List.length_cons, List.length_cons, hlen]⟩
      rw [List.mapM_cons, hb, hys]
      rfl

theorem gather_range (x : List ℚ) :
    ∀ n : Nat, n ≤ x.length →
      (List.range n).filterMap (fun (i : Nat) => pyGetElem x (i : Int)) = x.take n := by
  intro n
  induction n with
  | zero => intro; rfl
  | succ n ih =>
      intro h
      have hlt : n < x.length := by omega
      rw [List.range_succ, List.filterMap_append, ih (by omega)]
      rw [show List.filterMap (fun (i : Nat) => pyGetElem x (i : Int)) [n] = [x[n]] from by
        rw [List.filterMap_cons, pyGetElem_natCast x n hlt]; rfl]
      rw [List.take_succ, List.getElem?_eq_getElem hlt]
      rfl

theorem sliceElems_full (x : List ℚ) :
    sliceElems ⟨Option.none, Option.none, Option.none⟩ x = x := by
  unfold sliceElems
  have h1 : sliceStart ⟨Option.none, Option.none, Option.none⟩ (x.length : Int) = 0 := rfl
  have h2 : sliceStop ⟨Option.none, Option.none, Option.none⟩ (x.length : Int) =
      (x.length : Int) := rfl
  have h3 : sliceStep ⟨Option.none, Option.none, Option.none⟩ = 1 := rfl
  rw [h1, h2, h3]
  have hc : sliceCount 0 (x.length : Int) 1 = (x.length : Int) := by
    unfold sliceCount
    rw [if_pos (by omega : (0:Int) < 1)]
    by_cases h : (0:Int) < (x.length : Int)
    · rw [if_pos h, Int.fdiv_one]
      omega
    · rw [if_neg h]
      omega
  rw [hc]
  have harg : ∀ i : Nat, (0:Int) + 1 * (i : Int) = (i : Int) := by intro i; ring
  simp only [harg, Int.toNat_natCast]
  rw [gather_range x x.length (le_refl _), List.take_length]

theorem sliceAdj_id (step len v : Int) (hstep : 0 < step) (h0 : 0 ≤ v)
    (hlen : v ≤ len) : sliceAdj step len v = v := by
  unfold sliceAdj sliceUpper
  rw [if_neg (by omega), if_pos hstep, min_eq_left hlen]

theorem sliceCount_divides (b e st : Int) (hbe : b ≤ e) (hst : 0 < st)
    (hdvd : st ∣ (e - b)) : sliceCount b e st = Int.fdiv (e - b) st := by
  obtain ⟨q, hq⟩ := hdvd
  have hfd : Int.fdiv (e - b) st = q := by
    rw [hq, Int.mul_fdiv_cancel_left _ (ne_of_gt hst)]
  have hq0 : 0 ≤ q := by
    rcases le_or_lt 0 q with h | h
    · exact h
    · have := mul_neg_of_pos_of_neg hst h
      omega
  unfold sliceCount
  rw [if_pos hst]
  by_cases hlt : b < e
  · rw [if_pos hlt, hfd]
    have hq1 : 1 ≤ q := by
      rcases le_or_lt 1 q with h | h
      · exact h
      · have hq0' : q = 0 := by omega
        rw [hq0', mul_zero] at hq
        omega
    have hrw : e - b - 1 = (st - 1) + (q - 1) * st := by
      rw [hq]; ring
    rw [hrw, Int.fdiv_eq_ediv _ (le_of_lt hst),
      Int.add_mul_ediv_right _ _ (ne_of_gt hst),
      Int.ediv_eq_zero_of_lt (by omega) (by omega)]
    omega
  · rw [if_neg hlt, hfd]
    have hq0' : q = 0 := by
      rcases lt_or_le 0 q with h | h
      · have := mul_pos hst h
        omega
      · omega
    omega

theorem sliceElems_length_divides (b e st : Int) (x : List ℚ)
    (hb : 0 ≤ b) (hbe : b ≤ e) (hst : 0 < st) (hdvd : st ∣ (e - b))
    (hel : e ≤ (x.length : Int)) :
    ((sliceElems ⟨Option.some b, Option.some e, Option.some st⟩ x).length : Int) =
      Int.fdiv (e - b) st := by
  obtain ⟨q, hq⟩ := hdvd
  have hfd : Int.fdiv (e - b) st = q := by
    rw [hq, Int.mul_fdiv_cancel_left _ (ne_of_gt hst)]
  have hq0 : 0 ≤ q := by
    rcases le_or_lt 0 q with h | h
    · exact h
    · have := mul_neg_of_pos_of_neg hst h
      omega
  have hstart : sliceStart ⟨Option.some b, Option.some e, Option.some st⟩
      (x.length : Int) = b := by
    show sliceAdj st (x.length : Int) b = b
    exact sliceAdj_id st _ b hst hb (by omega)
  have hstop : sliceStop ⟨Option.some b, Option.some e, Option.some st⟩
      (x.length : Int) = e := by
    show sliceAdj st (x.length : Int) e = e
    exact sliceAdj_id st _ e hst (by omega) hel
  have hstep : sliceStep ⟨Option.some b, Option.some e, Option.some st⟩ = st := rfl
  have hsome : ∀ i ∈ List.range q.toNat,
      (pyGetElem x (b + st * (i : Int))).isSome := by
    intro i hi
    rw [List.mem_range] at hi
    have hiq : (i : Int) ≤ q - 1 := by omega
    have h2 : st * (i : Int) ≤ st * (q - 1) :=
      mul_le_mul_of_nonneg_left hiq (le_of_lt hst)
    have h3 : st * (q - 1) = st * q - st := by ring
    have h4 : 0 ≤ st * (i : Int) := mul_nonneg (le_of_lt hst) (Int.natCast_nonneg i)
    apply pyGetElem_isSome
    · omega
    · omega
  unfold sliceElems
  rw [hstart, hstop, hstep, sliceCount_divides b e st hbe hst ⟨q, hq⟩, hfd,
    length_filterMap_of_isSome _ _ hsome, List.length_range]
  exact Int.toNat_of_nonneg hq0

/-- C3 counterexample: for the slice selector slice(0, 5, 2) the normalizer
stores n_dims = (5 - 0) // 2 = 2, but the canonical selector applied to a
width-5 input selects 3 columns; and a combination kernel built by a
factory never assigns n_dims at all, so the claimed mutual consistency
fails on both counts. -/
theorem C3_consistency_cex :
    ∃ obj cObj : KernelObj,
      Constant.init (Selector.slice ⟨Option.some 0, Option.some 5, Option.some 2⟩) 0 =
        Except.ok obj ∧
      obj.n_dims = Option.some 2 ∧
      obj.slice_input [10, 11, 12, 13, 14] = Option.some (Sliced.arr [10, 12, 14]) ∧
      ([10, 12, 14] : List ℚ).length = 3 ∧
      SumKernel [Operand.kernel (Kernel.constant 1),
        Operand.kernel (Kernel.constant 2)] = Except.ok cObj ∧
      cObj.n_dims = Option.none := by
  refine ⟨⟨Option.some 2,
      Selector.slice ⟨Option.some 0, Option.some 5, Option.some 2⟩, Kernel.constant 0⟩,
    ⟨Option.none, Selector.int 1,
      Kernel.combination Operator.sum [Kernel.constant 1, Kernel.constant 2]⟩,
    rfl, rfl, ?_, rfl, rfl, rfl⟩
  rfl

/-- C3 amended: after construction of a leaf kernel, n_dims matches the
number of columns the canonical selector picks out for list selectors (on
inputs wide enough for every index), for int selectors (on inputs of width
exactly k, since the canonical selector is the unrestricted full slice),
and for slice selectors with nonnegative bounds whose positive step evenly
divides stop - start; combination kernels never assign n_dims at all. -/
theorem C3_amended_consistency :
    (∀ (l : List Int) (x : List ℚ),
      (∀ i ∈ l, -(x.length : Int) ≤ i ∧ i < (x.length : Int)) →
      _check_active_dims (Selector.list l) =
        Except.ok ((l.length : Int), Selector.list l) ∧
      ∃ ys : List ℚ, selectDims (Selector.list l) x = Option.some (Sliced.arr ys) ∧
        ys.length = l.length) ∧
    (∀ k : Int, 0 < k → ∀ x : List ℚ, (x.length : Int) = k →
      _check_active_dims (Selector.int k) =
        Except.ok (k, Selector.slice ⟨Option.none, Option.none, Option.none⟩) ∧
      selectDims (Selector.slice ⟨Option.none, Option.none, Option.none⟩) x =
        Option.some (Sliced.arr x)) ∧
    (∀ (b e st : Int) (x : List ℚ), 0 ≤ b → b ≤ e → 0 < st → st ∣ (e - b) →
      e ≤ (x.length : Int) →
      ∃ n : Int,
        _check_active_dims
            (Selector.slice ⟨Option.some b, Option.some e, Option.some st⟩) =
          Except.ok (n, Selector.slice ⟨Option.some b, Option.some e, Option.some st⟩) ∧
        ∃ ys : List ℚ,
          selectDims (Selector.slice ⟨Option.some b, Option.some e, Option.some st⟩) x =
            Option.some (Sliced.arr ys) ∧ (ys.length : Int) = n) ∧
    (∀ (op : Operator) (ops : List Operand) (ad : Selector) (obj : KernelObj),
      CombinationKernel.init op ops ad = Except.ok obj →
      obj.n_dims = Option.none) := by
  refine ⟨?_, ?_, ?_, ?_⟩
  · intro l x hval
    refine ⟨rfl, ?_⟩
    obtain ⟨ys, hys, hlen⟩ := mapM_some_length (pyGetElem x) l
      (fun i hi => pyGetElem_isSome x i (hval i hi).1 (hval i hi).2)
    refine ⟨ys, ?_, hlen⟩
    show (l.mapM (pyGetElem x)).map Sliced.arr = _
    rw [hys]
    rfl
  · intro k hk x hx
    refine ⟨rfl, ?_⟩
    show Option.some (Sliced.arr (sliceElems ⟨Option.none, Option.none, Option.none⟩ x)) = _
    rw [sliceElems_full]
  · intro b e st x hb hbe hst hdvd hel
    refine ⟨Int.fdiv (e - b) st, ?_,
      sliceElems ⟨Option.some b, Option.some e, Option.some st⟩ x, ?_,
      sliceElems_length_divides b e st x hb hbe hst hdvd hel⟩
    · show (if st = 0 then _ else _) = _
      rw [if_neg (by omega : ¬ st = 0)]
    · show (if st = 0 then Option.none else Option.some (Sliced.arr
          (sliceElems ⟨Option.some b, Option.some e, Option.some st⟩ x))) = _
      rw [if_neg (by omega : ¬ st = 0)]
  · intro op ops ad obj h
    rw [init_eq] at h
    cases hfl : flattenOperands ops with
    | error e =>
        rw [hfl] at h
        exact Except.noConfusion h
    | ok L =>
        rw [hfl] at h
        rw [← Except.ok.inj h]

/-- C3 witness: the amended consistency applied at the list selector [0, 2]
on a width-3 input, the int selector 2 on a width-2 input, the slice
selector slice(0, 4, 2) on a width-5 input, and a sum of one Constant. -/
theorem C3_amended_consistency_witness :
    (_check_active_dims (Selector.list [0, 2]) =
        Except.ok (2, Selector.list [0, 2]) ∧
      ∃ ys : List ℚ, selectDims (Selector.list [0, 2]) [10, 11, 12] =
        Option.some (Sliced.arr ys) ∧ ys.length = 2) ∧
    (_check_active_dims (Selector.int 2) =
        Except.ok (2, Selector.slice ⟨Option.none, Option.none, Option.none⟩) ∧
      selectDims (Selector.slice ⟨Option.none, Option.none, Option.none⟩)
          ([5, 6] : List ℚ) = Option.some (Sliced.arr [5, 6])) ∧
    (∃ n : Int,
      _check_active_dims
          (Selector.slice ⟨Option.some 0, Option.some 4, Option.some 2⟩) =
        Except.ok (n, Selector.slice ⟨Option.some 0, Option.some 4, Option.some 2⟩) ∧
      ∃ ys : List ℚ,
        selectDims (Selector.slice ⟨Option.some 0, Option.some 4, Option.some 2⟩)
            ([1, 2, 3, 4, 5] : List ℚ) =
          Option.some (Sliced.arr ys) ∧ (ys.length : Int) = n) ∧
    KernelObj.n_dims ⟨Option.none, Selector.int 1,
      Kernel.combination Operator.sum [Kernel.constant 1]⟩ = Option.none := by
  refine ⟨C3_amended_consistency.1 [0, 2] [10, 11, 12] (by decide),
    C3_amended_consistency.2.1 2 (by decide) [5, 6] rfl,
    C3_amended_consistency.2.2.1 0 4 2 [1, 2, 3, 4, 5]
      (by decide) (by decide) (by decide) (by decide) (by decide),
    C3_amended_consistency.2.2.2 Operator.sum [Operand.kernel (Kernel.constant 1)]
      (Selector.int 1)
      ⟨Option.none, Selector.int 1, Kernel.combination Operator.sum [Kernel.constant 1]⟩
      rfl⟩

/-- C8: a positive int selector k normalizes to n_dims = k with the
unrestricted full slice slice(None) as canonical selector, and slicing the
input with that canonical selector is a full-width pass-through (on a
width-k input it returns exactly the first k columns, i.e. the whole
input). -/
theorem C8_int_selector_passthrough (k : Int) (_hk : 0 < k) :
    _check_active_dims (Selector.int k) =
      Except.ok (k, Selector.slice ⟨Option.none, Option.none, Option.none⟩) ∧
    ∀ (c : ℚ) (obj : KernelObj), Constant.init (Selector.int k) c = Except.ok obj →
      obj.n_dims = Option.some k ∧
      (∀ x : List ℚ, obj.slice_input x = Option.some (Sliced.arr x)) ∧
      (∀ x : List ℚ, x.length = k.toNat →
        obj.slice_input x = Option.some (Sliced.arr (x.take k.toNat))) := by
  refine ⟨rfl, ?_⟩
  intro c obj h
  have h2 : Constant.init (Selector.int k) c = Except.ok ⟨Option.some k,
      Selector.slice ⟨Option.none, Option.none, Option.none⟩, Kernel.constant c⟩ := rfl
  rw [h2] at h
  rw [← Except.ok.inj h]
  refine ⟨rfl, ?_, ?_⟩
  · intro x
    show Option.some (Sliced.arr (sliceElems ⟨Option.none, Option.none, Option.none⟩ x)) = _
    rw [sliceElems_full]
  · intro x hx
    show Option.some (Sliced.arr (sliceElems ⟨Option.none, Option.none, Option.none⟩ x)) = _
    rw [sliceElems_full, ← hx, List.take_length]

/-- C8 witness: the int selector 3 with constant 5 and the width-3 input
[1, 2, 3]. -/
theorem C8_int_selector_passthrough_witness :
    _check_active_dims (Selector.int 3) =
      Except.ok (3, Selector.slice ⟨Option.none, Option.none, Option.none⟩) ∧
    KernelObj.n_dims ⟨Option.some 3,
      Selector.slice ⟨Option.none, Option.none, Option.none⟩, Kernel.constant 5⟩ =
      Option.some 3 ∧
    KernelObj.slice_input ⟨Option.some 3,
        Selector.slice ⟨Option.none, Option.none, Option.none⟩, Kernel.constant 5⟩
      [1, 2, 3] = Option.some (Sliced.arr [1, 2, 3]) := by
  have h := C8_int_selector_passthrough 3 (by decide)
  exact ⟨h.1, (h.2 5 _ rfl).1, (h.2 5 _ rfl).2.1 [1, 2, 3]⟩

/-- C10: a slice selector whose start or stop is None makes the normalizer
raise the unguarded TypeError from the subtraction (stop - start), not the
documented ValueError, and it returns no result; when start and stop are
both integers (and the step is not zero) the normalizer returns normally,
so totality indeed requires integer start and stop. -/
theorem C10_none_bound_typeerror :
    (∀ s : Slice, s.start = Option.none ∨ s.stop = Option.none →
      _check_active_dims (Selector.slice s) =
        Except.error
          (PyError.typeError "unsupported operand type for subtraction with None") ∧
      ∀ m : String,
        _check_active_dims (Selector.slice s) ≠
          Except.error (PyError.valueError m)) ∧
    (∀ b e st : Int, st ≠ 0 →
      _check_active_dims
          (Selector.slice ⟨Option.some b, Option.some e, Option.some st⟩) =
        Except.ok (Int.fdiv (e - b) st,
          Selector.slice ⟨Option.some b, Option.some e, Option.some st⟩)) ∧
    (∀ b e : Int,
      _check_active_dims (Selector.slice ⟨Option.some b, Option.some e, Option.none⟩) =
        Except.ok (Int.fdiv (e - b) 1,
          Selector.slice ⟨Option.some b, Option.some e, Option.none⟩)) := by
  refine ⟨?_, ?_, ?_⟩
  · intro s h
    obtain ⟨sta, sto, ste⟩ := s
    have herr : _check_active_dims (Selector.slice ⟨sta, sto, ste⟩) =
        Except.error
          (PyError.typeError "unsupported operand type for subtraction with None") := by
      cases sta with
      | none =>
          cases sto with
          | none => rfl
          | some e => rfl
      | some b =>
          cases sto with
          | none => rfl
          | some e => simp at h
    refine ⟨herr, ?_⟩
    intro m hm
    rw [herr] at hm
    exact absurd hm (by simp)
  · intro b e st hst
    show (if st = 0 then _ else _) = _
    rw [if_neg hst]
  · intro b e
    rfl

/-- C10 witness: slice(5), i.e. slice(None, 5, None), raises the TypeError
and is not the documented ValueError; slice(0, 5, 2) returns normally. -/
theorem C10_none_bound_typeerror_witness :
    (_check_active_dims (Selector.slice ⟨Option.none, Option.some 5, Option.none⟩) =
      Except.error
        (PyError.typeError "unsupported operand type for subtraction with None")) ∧
    (_check_active_dims (Selector.slice ⟨Option.none, Option.some 5, Option.none⟩) ≠
      Except.error (PyError.valueError "active_dims must be a list, int or slice.")) ∧
    (_check_active_dims (Selector.slice ⟨Option.some 0, Option.some 5, Option.some 2⟩) =
      Except.ok (2, Selector.slice ⟨Option.some 0, Option.some 5, Option.some 2⟩)) := by
  have h1 := C10_none_bound_typeerror.1 ⟨Option.none, Option.some 5, Option.none⟩
    (Or.inl rfl)
  have h2 := C10_none_bound_typeerror.2.1 0 5 2 (by decide)
  exact ⟨h1.1, h1.2 "active_dims must be a list, int or slice.", by rw [h2]; rfl⟩
